import Mathlib

/-!
# goberkeleydb: the cgo binding layer of `berkeleydb_c.go`

A shallow embedding of the Go wrapper functions around Berkeley DB.

* Go values are Lean values; a Go function that may panic returns an `Outcome`.
* The C side (libdb, libc and the constants of `db.h`) is not part of the
  package: it is a parameter `Native σ`, a record of the constants and of the
  behaviour of every C function the package calls, over a native state `σ`.
* Every C call the wrappers make is appended to a trace, so that statements
  such as "the native close is invoked" are statements about the trace.
* Machine integers are `Nat`/`Int` with explicit wrap-around at the Go/C
  conversions (`C.u_int32_t(len(val))`, `C.int(val.size)`, `C.int(mode)`).
-/

namespace GoBerkeleyDB

/-! ## Values -/

/-- One Go `byte`. -/
abbrev Byte := Fin 256

/-- Result of running a Go function body: it returns, or it panics. -/
inductive Outcome (α : Type) where
  | ret (a : α) : Outcome α
  | panic (reason : String) : Outcome α
  deriving DecidableEq, Repr

/-- The Go interface type `error`: `none` is the nil error, a non-nil error is
identified by its message. -/
abbrev error := Option String

/-- A Go `[]byte`: the address of its backing array and its elements. A nil
slice and an empty slice both have no elements. -/
structure Slice where
  base : Nat
  elems : List Byte
  deriving DecidableEq, Repr

/-- What an `unsafe.Pointer` to bytes refers to: an address and the bytes
readable from that address on. -/
structure Region where
  addr : Nat
  bytes : List Byte
  deriving DecidableEq, Repr

/-- An `unsafe.Pointer`: `none` is nil. -/
abbrev Pointer := Option Region

/-- The numeric address held by a pointer; nil is address 0. -/
def Pointer.address : Pointer → Nat
  | none => 0
  | some r => r.addr

/-- The fields of `C.DBT` the package uses. -/
structure C.DBT where
  data : Pointer
  size : Nat
  flags : Nat
  deriving DecidableEq, Repr

/-- The Go zero value `var data C.DBT`. -/
def C.DBT.zero : C.DBT := { data := none, size := 0, flags := 0 }

/-- Go struct `BerkeleyDB { ptr *C.DB }`; handle 0 is nil. -/
structure BerkeleyDB where
  ptr : Nat
  deriving DecidableEq, Repr

/-- Go struct `Transaction { ptr *C.DB_TXN }`. -/
structure Transaction where
  ptr : Nat
  deriving DecidableEq, Repr

/-- Go struct `Environment { ptr *C.DB_ENV }`. -/
structure Environment where
  ptr : Nat
  deriving DecidableEq, Repr

/-- Go struct `Cursor { ptr *C.DBC }`. -/
structure Cursor where
  ptr : Nat
  deriving DecidableEq, Repr

/-- Package variable `NoEnv = Environment{ptr: nil}`. -/
def NoEnv : Environment := { ptr := 0 }

/-- Package variable `NoTxn = Transaction{ptr: nil}`. -/
def NoTxn : Transaction := { ptr := 0 }

/-! ## Integer conversions at the Go/C boundary -/

/-- Conversion of a non-negative Go integer to `C.u_int32_t`. -/
def toU32 (n : Nat) : Nat := n % 4294967296

/-- Conversion of a Go `int` to the 32-bit signed `C.int`. -/
def toCInt (x : Int) : Int := (x + 2147483648) % 4294967296 - 2147483648

/-- Conversion `C.int(s)` of a `C.u_int32_t` value: the same 32 bits read as
a signed number. -/
def u32ToCInt (s : Nat) : Int :=
  if s % 4294967296 < 2147483648 then ((s % 4294967296 : Nat) : Int)
  else ((s % 4294967296 : Nat) : Int) - 4294967296

/-- Conversion `C.DBTYPE(dbtype)` of a Go `int` to the C enumeration. -/
def toDBTYPE (x : Int) : Nat := (x % 4294967296).toNat

/-! ## The native side -/

/-- One call into C made by the package, with the arguments passed. -/
inductive Call where
  | CString (s : String) (addr : Nat)
  | free (addr : Nat)
  | db_create (env : Nat) (flags : Nat)
  | db_open (db txn file database type flags : Nat) (mode : Int)
  | db_close (db flags : Nat)
  | db_get_type (db : Nat)
  | db_put (db txn : Nat) (key data : C.DBT) (flags : Nat)
  | db_get (db txn : Nat) (key data : C.DBT) (flags : Nat)
  | db_del (db txn : Nat) (key : C.DBT) (flags : Nat)
  | db_cursor (db txn flags : Nat)
  | db_cursor_close (cur : Nat)
  | db_cursor_get (cur : Nat) (key data : C.DBT) (flags : Nat)
  deriving DecidableEq, Repr

/-- The C side as the package sees it: the constants of `db.h` it names and
the behaviour of each C function it calls, over a native state `σ`. A function
with an out-parameter returns the value left in it. -/
structure Native (σ : Type) where
  DB_DBT_READONLY : Nat
  DB_DBT_REALLOC : Nat
  DB_FIRST : Nat
  DB_NEXT : Nat
  DB_LAST : Nat
  CString : String → σ → Nat × σ
  free : Nat → σ → σ
  db_create : Nat → Nat → σ → (Int × Nat) × σ
  db_open : Nat → Nat → Nat → Nat → Nat → Nat → Int → σ → Int × σ
  db_close : Nat → Nat → σ → Int × σ
  db_get_type : Nat → σ → (Int × Nat) × σ
  db_put : Nat → Nat → C.DBT → C.DBT → Nat → σ → Int × σ
  db_get : Nat → Nat → C.DBT → C.DBT → Nat → σ → (Int × C.DBT) × σ
  db_del : Nat → Nat → C.DBT → Nat → σ → Int × σ
  db_cursor : Nat → Nat → Nat → σ → (Int × Nat) × σ
  db_cursor_close : Nat → σ → Int × σ
  db_cursor_get : Nat → C.DBT → C.DBT → Nat → σ → (Int × C.DBT × C.DBT) × σ

/-- The native state together with the calls made so far, oldest first. -/
structure World (σ : Type) where
  native : σ
  trace : List Call

variable {σ : Type}

/-- Record a call and the native state it leaves. -/
def World.log (w : World σ) (c : Call) (s : σ) : World σ :=
  { native := s, trace := w.trace ++ [c] }

/-- The call `C.free(p)`. -/
def C.free (N : Native σ) (p : Pointer) (w : World σ) : World σ :=
  w.log (Call.free p.address) (N.free p.address w.native)

/-- The addresses passed to `free` in a trace, in call order. -/
def freed : List Call → List Nat
  | [] => []
  | Call.free a :: cs => a :: freed cs
  | _ :: cs => freed cs

/-- The handles passed to the native database close in a trace. -/
def closed : List Call → List Nat
  | [] => []
  | Call.db_close h _ :: cs => h :: closed cs
  | _ :: cs => closed cs

/-! ## The package functions -/

/-- Source lines 102-104: `func Err(C.int) error { return nil }`. -/
def Err (_rc : Int) : error := none

/-- Source lines 106-112: `bytesDBT`. Taking `&val[0]` of a slice without
elements is a run-time panic. -/
def bytesDBT (N : Native σ) (val : Slice) : Outcome C.DBT :=
  match val.elems with
  | [] => Outcome.panic "index out of range [0] with length 0"
  | _ :: _ =>
    Outcome.ret
      { data := some { addr := val.base, bytes := val.elems }
        size := toU32 val.elems.length
        flags := N.DB_DBT_READONLY }

/-- The cgo helper `C.GoBytes(p, n)`: a fresh Go slice holding the `n` bytes
at `p`. A negative length panics in the Go runtime; reading through nil or past
the region is a fault. -/
def C.GoBytes (p : Pointer) (n : Int) : Outcome (List Byte) :=
  if n < 0 then Outcome.panic "gobytes: length out of range"
  else if n = 0 then Outcome.ret []
  else
    match p with
    | none => Outcome.panic "invalid memory address or nil pointer dereference"
    | some r =>
      if n.toNat ≤ r.bytes.length then Outcome.ret (r.bytes.take n.toNat)
      else Outcome.panic "read past the end of the region"

/-- Source lines 114-116: `cloneToBytes`. -/
def cloneToBytes (val : C.DBT) : Outcome (List Byte) :=
  C.GoBytes val.data (u32ToCInt val.size)

/-- Source lines 144-150: `func (db BerkeleyDB) Close(flags DbFlag) (err error)`.
The receiver is passed by value: `db.ptr = nil` assigns to the local copy
`db`, which is dropped at return, so only `err` comes back to the caller. -/
def BerkeleyDB.Close (N : Native σ) (db : BerkeleyDB) (flags : Nat) (w : World σ) :
    error × World σ :=
  if db.ptr ≠ 0 then
    let r := N.db_close db.ptr (toU32 flags) w.native
    let err := Err r.1
    let _db : BerkeleyDB := { db with ptr := 0 }
    (err, w.log (Call.db_close db.ptr (toU32 flags)) r.2)
  else (none, w)

/-- Source lines 118-143: `OpenBDB`. The two deferred frees run at every
return, last registered first. A nil `*BerkeleyDB` result is `none`. -/
def OpenBDB (N : Native σ) (env : Environment) (txn : Transaction) (file : String)
    (database : Option String) (dbtype : Int) (flags : Nat) (mode : Int) (w : World σ) :
    (Option BerkeleyDB × error) × World σ :=
  let a := N.CString file w.native
  let cFile := a.1
  let w := w.log (Call.CString file cFile) a.2
  let b : Nat × World σ :=
    match database with
    | none => (0, w)
    | some name =>
      let c := N.CString name w.native
      (c.1, w.log (Call.CString name c.1) c.2)
  let cDatabase := b.1
  let w := b.2
  let deferred : World σ → World σ := fun w =>
    let w := match database with
      | none => w
      | some _ => w.log (Call.free cDatabase) (N.free cDatabase w.native)
    w.log (Call.free cFile) (N.free cFile w.native)
  let r := N.db_create env.ptr 0 w.native
  let db : BerkeleyDB := { ptr := r.1.2 }
  let w := w.log (Call.db_create env.ptr 0) r.2
  let err := Err r.1.1
  if err ≠ none then ((none, err), deferred w)
  else
    let o := N.db_open db.ptr txn.ptr cFile cDatabase (toDBTYPE dbtype) (toU32 flags)
      (toCInt mode) w.native
    let w := w.log
      (Call.db_open db.ptr txn.ptr cFile cDatabase (toDBTYPE dbtype) (toU32 flags) (toCInt mode))
      o.2
    let err := Err o.1
    if err ≠ none then
      let w := (BerkeleyDB.Close N db 0 w).2
      ((none, err), deferred w)
    else ((some db, none), deferred w)

/-- Source lines 151-156: `GetType`. -/
def BerkeleyDB.GetType (N : Native σ) (db : BerkeleyDB) (w : World σ) :
    (Nat × error) × World σ :=
  let r := N.db_get_type db.ptr w.native
  ((r.1.2, Err r.1.1), w.log (Call.db_get_type db.ptr) r.2)

/-- Source lines 157-159: `Put`. The arguments of the C call are evaluated left
to right before the call, so a panic in `bytesDBT` leaves the world as it was. -/
def BerkeleyDB.Put (N : Native σ) (db : BerkeleyDB) (txn : Transaction) (key val : Slice)
    (flags : Nat) (w : World σ) : Outcome error × World σ :=
  match bytesDBT N key with
  | Outcome.panic m => (Outcome.panic m, w)
  | Outcome.ret k =>
    match bytesDBT N val with
    | Outcome.panic m => (Outcome.panic m, w)
    | Outcome.ret v =>
      let r := N.db_put db.ptr txn.ptr k v (toU32 flags) w.native
      (Outcome.ret (Err r.1), w.log (Call.db_put db.ptr txn.ptr k v (toU32 flags)) r.2)

/-- Source lines 160-171: `Get`. The operand of `defer C.free(data.data)` is
evaluated when the `defer` statement runs, before the native get, and the
deferred call runs at every exit, a panic included. A nil `[]byte` result is
`none`. -/
def BerkeleyDB.Get (N : Native σ) (db : BerkeleyDB) (txn : Transaction) (key : Slice)
    (flags : Nat) (w : World σ) : Outcome (Option (List Byte) × error) × World σ :=
  let data : C.DBT := C.DBT.zero
  let data : C.DBT := { data with flags := data.flags ||| N.DB_DBT_REALLOC }
  let deferredArg : Pointer := data.data
  match bytesDBT N key with
  | Outcome.panic m => (Outcome.panic m, C.free N deferredArg w)
  | Outcome.ret k =>
    let r := N.db_get db.ptr txn.ptr k data (toU32 flags) w.native
    let w := w.log (Call.db_get db.ptr txn.ptr k data (toU32 flags)) r.2
    let data := r.1.2
    let err := Err r.1.1
    if err ≠ none then (Outcome.ret (none, err), C.free N deferredArg w)
    else
      match cloneToBytes data with
      | Outcome.panic m => (Outcome.panic m, C.free N deferredArg w)
      | Outcome.ret bytes => (Outcome.ret (some bytes, none), C.free N deferredArg w)

/-- Source lines 172-174: `Del`. -/
def BerkeleyDB.Del (N : Native σ) (db : BerkeleyDB) (txn : Transaction) (key : Slice)
    (flags : Nat) (w : World σ) : Outcome error × World σ :=
  match bytesDBT N key with
  | Outcome.panic m => (Outcome.panic m, w)
  | Outcome.ret k =>
    let r := N.db_del db.ptr txn.ptr k (toU32 flags) w.native
    (Outcome.ret (Err r.1), w.log (Call.db_del db.ptr txn.ptr k (toU32 flags)) r.2)

/-- Source lines 176-183: `NewCursor`. -/
def BerkeleyDB.NewCursor (N : Native σ) (db : BerkeleyDB) (txn : Transaction) (flags : Nat)
    (w : World σ) : (Option Cursor × error) × World σ :=
  let r := N.db_cursor db.ptr txn.ptr (toU32 flags) w.native
  let ret : Cursor := { ptr := r.1.2 }
  let w := w.log (Call.db_cursor db.ptr txn.ptr (toU32 flags)) r.2
  let err := Err r.1.1
  if err ≠ none then ((none, err), w) else ((some ret, none), w)

/-- Source lines 184-190: `func (cursor Cursor) Close() error`, value receiver. -/
def Cursor.Close (N : Native σ) (cursor : Cursor) (w : World σ) : error × World σ :=
  let r := N.db_cursor_close cursor.ptr w.native
  let err := Err r.1
  let _cursor : Cursor := if err = none then { cursor with ptr := 0 } else cursor
  (err, w.log (Call.db_cursor_close cursor.ptr) r.2)

/-- Source lines 200-211: `CursorGetRaw`. Both deferred operands are evaluated
at their `defer` statements; the deferred calls run last registered first. -/
def Cursor.CursorGetRaw (N : Native σ) (cursor : Cursor) (flags : Nat) (w : World σ) :
    Outcome (Option (List Byte) × Option (List Byte) × error) × World σ :=
  let key : C.DBT := { data := none, size := 0, flags := N.DB_DBT_REALLOC }
  let deferredKey : Pointer := key.data
  let val : C.DBT := { data := none, size := 0, flags := N.DB_DBT_REALLOC }
  let deferredVal : Pointer := val.data
  let deferred : World σ → World σ := fun w => C.free N deferredKey (C.free N deferredVal w)
  let r := N.db_cursor_get cursor.ptr key val (toU32 flags) w.native
  let w := w.log (Call.db_cursor_get cursor.ptr key val (toU32 flags)) r.2
  let key := r.1.2.1
  let val := r.1.2.2
  let err := Err r.1.1
  if err ≠ none then (Outcome.ret (none, none, err), deferred w)
  else
    match cloneToBytes key with
    | Outcome.panic m => (Outcome.panic m, deferred w)
    | Outcome.ret k =>
      match cloneToBytes val with
      | Outcome.panic m => (Outcome.panic m, deferred w)
      | Outcome.ret v => (Outcome.ret (some k, some v, none), deferred w)

/-- Source lines 191-193: `First`. -/
def Cursor.First (N : Native σ) (cursor : Cursor) (w : World σ) :
    Outcome (Option (List Byte) × Option (List Byte) × error) × World σ :=
  Cursor.CursorGetRaw N cursor N.DB_FIRST w

/-- Source lines 194-196: `Next`. -/
def Cursor.Next (N : Native σ) (cursor : Cursor) (w : World σ) :
    Outcome (Option (List Byte) × Option (List Byte) × error) × World σ :=
  Cursor.CursorGetRaw N cursor N.DB_NEXT w

/-- Source lines 197-199: `Last`. -/
def Cursor.Last (N : Native σ) (cursor : Cursor) (w : World σ) :
    Outcome (Option (List Byte) × Option (List Byte) × error) × World σ :=
  Cursor.CursorGetRaw N cursor N.DB_LAST w

/-- Source lines 212-214: `NewEnvironment` returns `nil, nil`. -/
def NewEnvironment (_home : String) (_flags : Nat) (_mode : Int) (w : World σ) :
    (Option Environment × error) × World σ :=
  ((none, none), w)

/-- Source lines 215-217: `func (env Environment) Close` returns nil. -/
def Environment.Close (_env : Environment) (_flags : Nat) (w : World σ) : error × World σ :=
  (none, w)

/-- Source lines 219-221: `BeginTransaction` returns `nil, nil`. -/
def Environment.BeginTransaction (_env : Environment) (_flags : Nat) (w : World σ) :
    (Option Transaction × error) × World σ :=
  ((none, none), w)

/-- Source lines 222-224: `Abort` returns nil. -/
def Transaction.Abort (_trx : Transaction) (w : World σ) : error × World σ :=
  (none, w)

/-- Source lines 225-227: `Commit` returns nil. -/
def Transaction.Commit (_txn : Transaction) (_flags : Nat) (w : World σ) : error × World σ :=
  (none, w)

/-! ## Native layers used to run the package on concrete inputs -/

/-- What a scripted native layer answers: the handle `db_create` leaves in
`*dbp`, the status of each call, and the buffer and size the get calls store in
their output descriptors. -/
structure Script where
  handle : Nat
  rcCreate : Int
  rcOpen : Int
  rcClose : Int
  rcPut : Int
  rcGet : Int
  buffer : Pointer
  size : Nat

/-- A native layer without state that answers every call from a script. The
constants are those of the `db.h` of Berkeley DB 5.3; `CString` hands out the
address 64. -/
def scripted (s : Script) : Native Unit where
  DB_DBT_READONLY := 256
  DB_DBT_REALLOC := 128
  DB_FIRST := 7
  DB_NEXT := 16
  DB_LAST := 15
  CString := fun _ u => (64, u)
  free := fun _ u => u
  db_create := fun _ _ u => ((s.rcCreate, s.handle), u)
  db_open := fun _ _ _ _ _ _ _ u => (s.rcOpen, u)
  db_close := fun _ _ u => (s.rcClose, u)
  db_get_type := fun _ u => ((0, 1), u)
  db_put := fun _ _ _ _ _ u => (s.rcPut, u)
  db_get := fun _ _ _ data _ u => ((s.rcGet, { data with data := s.buffer, size := s.size }), u)
  db_del := fun _ _ _ _ u => (0, u)
  db_cursor := fun _ _ _ u => ((0, s.handle + 1), u)
  db_cursor_close := fun _ u => (0, u)
  db_cursor_get := fun _ key data _ u =>
    ((s.rcGet, { key with data := s.buffer, size := s.size },
      { data with data := s.buffer, size := s.size }), u)

/-- The world before any call, for a scripted native layer. -/
def World.start : World Unit := { native := (), trace := [] }

/-- State of a native store that is a map from byte sequences to byte
sequences: the open handles, the records, and the next address its allocator
hands out. -/
structure MapStore where
  opened : List Nat
  records : List Byte → Option (List Byte)
  brk : Nat

/-- The bytes an input descriptor designates: `size` bytes at `data`. -/
def readDBT (d : C.DBT) : Option (List Byte) :=
  match d.data with
  | none => if d.size = 0 then some [] else none
  | some r => if d.size ≤ r.bytes.length then some (r.bytes.take d.size) else none

/-- A native store that is a map from byte sequences to byte sequences. Put and
get on a handle that is not open, or with an unreadable descriptor, return
`EINVAL` (22); get on an absent key returns `DB_NOTFOUND` (-30988) and leaves
the output descriptor alone; get on a present key stores the address of a
buffer holding the value, and the value's length, in the output descriptor. -/
def mapNative : Native MapStore where
  DB_DBT_READONLY := 256
  DB_DBT_REALLOC := 128
  DB_FIRST := 7
  DB_NEXT := 16
  DB_LAST := 15
  CString := fun s m => (m.brk + 1, { m with brk := m.brk + s.length + 2 })
  free := fun _ m => m
  db_create := fun _ _ m => ((0, m.brk + 1), { m with brk := m.brk + 2 })
  db_open := fun h _ _ _ _ _ _ m => (0, { m with opened := h :: m.opened })
  db_close := fun h _ m => (0, { m with opened := m.opened.filter (fun x => x ≠ h) })
  db_get_type := fun _ m => ((0, 1), m)
  db_put := fun h _ key data _ m =>
    if h ∈ m.opened then
      match readDBT key, readDBT data with
      | some k, some v =>
        (0, { m with records := fun x => if x = k then some v else m.records x })
      | _, _ => (22, m)
    else (22, m)
  db_get := fun h _ key data _ m =>
    if h ∈ m.opened then
      match readDBT key with
      | some k =>
        match m.records k with
        | some v =>
          ((0, { data with data := some { addr := m.brk + 1, bytes := v }, size := v.length }),
            { m with brk := m.brk + v.length + 2 })
        | none => ((-30988, data), m)
      | none => ((22, data), m)
    else ((22, data), m)
  db_del := fun h _ key _ m =>
    if h ∈ m.opened then
      match readDBT key with
      | some k =>
        match m.records k with
        | some _ => (0, { m with records := fun x => if x = k then none else m.records x })
        | none => (-30988, m)
      | none => (22, m)
    else (22, m)
  db_cursor := fun _ _ _ m => ((22, 0), m)
  db_cursor_close := fun _ m => (22, m)
  db_cursor_get := fun _ key data _ m => ((22, key, data), m)

/-- A caller that calls `d.Close(flags)` on the same database `n` times, one
call after the other; the errors returned, first call first. -/
def closeRepeatedly (N : Native σ) (d : BerkeleyDB) (flags : Nat) :
    Nat → World σ → List error × World σ
  | 0, w => ([], w)
  | n + 1, w =>
    let r := BerkeleyDB.Close N d flags w
    let rest := closeRepeatedly N d flags n r.2
    (r.1 :: rest.1, rest.2)

/-- The two ways a caller finishes a transaction. -/
inductive Finish where
  | commit (flags : Nat)
  | abort
  deriving DecidableEq, Repr

/-- A caller that makes the given Commit and Abort calls on one transaction, in
order; the errors returned, first call first. -/
def finishAll (txn : Transaction) : List Finish → World σ → List error × World σ
  | [], w => ([], w)
  | Finish.commit flags :: rest, w =>
    let r := Transaction.Commit txn flags w
    let t := finishAll txn rest r.2
    (r.1 :: t.1, t.2)
  | Finish.abort :: rest, w =>
    let r := Transaction.Abort txn w
    let t := finishAll txn rest r.2
    (r.1 :: t.1, t.2)

/-! ## Concrete inputs -/

/-- A script in which every call succeeds and the get calls store a one-byte
buffer at address 4096 in their output descriptors. -/
def allOk : Script :=
  { handle := 7, rcCreate := 0, rcOpen := 0, rcClose := 0, rcPut := 0, rcGet := 0
    buffer := some { addr := 4096, bytes := [5] }, size := 1 }

/-- A script in which handle creation succeeds with handle 7 and the native
open fails with `ENOENT` (2). -/
def openFails : Script := { allOk with rcOpen := 2 }

/-- A script in which the get calls store a buffer in their output descriptors
and then fail with status 5 (`EIO`). -/
def getFails : Script := { allOk with rcGet := 5 }

/-- A map store with handle 7 open and no record. -/
def emptyStore : World MapStore :=
  { native := { opened := [7], records := fun _ => none, brk := 4096 }, trace := [] }

/-- The key bytes the map store reads from the descriptor `bytesDBT` builds. -/
def keyBytes (k : Slice) : List Byte := k.elems.take (toU32 k.elems.length)

/-! ## Theorems -/

/-- C1, the code at the failing input: `Err` returns the nil error for every
native status code, so also for every nonzero one (for instance -30988, the
not-found code, or 22). -/
theorem Err_returns_nil_for_every_status (rc : Int) : Err rc = none := rfl

/-- C3, the code at the failing input: on a map store without the key, the
native get returns the not-found status -30988, and `Get` returns an empty,
non-nil byte slice together with the nil error. -/
theorem Get_absent_key_returns_nil_error :
    (BerkeleyDB.Get mapNative { ptr := 7 } NoTxn { base := 64, elems := [1] } 0 emptyStore).1
        = Outcome.ret (some [], none) ∧
    (mapNative.db_get 7 0 { data := some { addr := 64, bytes := [1] }, size := 1, flags := 256 }
        { data := none, size := 0, flags := 128 } 0 emptyStore.native).1.1 = -30988 := by
  constructor <;> rfl

/-- C5, the code at the failing input: two `Close` calls on the same open
database both reach the native close with the same handle. -/
theorem Close_twice_calls_native_close_twice :
    closed (closeRepeatedly (scripted allOk) { ptr := 7 } 0 2 World.start).2.trace = [7, 7] ∧
    (closeRepeatedly (scripted allOk) { ptr := 7 } 0 2 World.start).1 = [none, none] := by
  constructor <;> rfl

/-- C6, the code at the failing input: the native get stores the buffer address
4096 in the output descriptor, and the address passed to `free` is 0 (nil), in
`Get` and twice in `CursorGetRaw`, whether the native call succeeds or fails. -/
theorem Get_frees_nil_not_the_buffer :
    freed (BerkeleyDB.Get (scripted allOk) { ptr := 7 } NoTxn { base := 64, elems := [1] } 0
      World.start).2.trace = [0] ∧
    freed (BerkeleyDB.Get (scripted getFails) { ptr := 7 } NoTxn { base := 64, elems := [1] } 0
      World.start).2.trace = [0] ∧
    freed (Cursor.CursorGetRaw (scripted allOk) { ptr := 8 } 7 World.start).2.trace = [0, 0] ∧
    (((scripted allOk).db_get 7 0 { data := some { addr := 64, bytes := [1] }, size := 1, flags := 256 }
        { data := none, size := 0, flags := 128 } 0 ()).1.2.data).address = 4096 := by
  refine ⟨?_, ?_, ?_, ?_⟩ <;> rfl

/-- C7, the code at the failing input: handle creation succeeds with handle 7,
the native open returns 2, and `OpenBDB` returns the database with the nil
error without any native close. -/
theorem OpenBDB_open_failure_not_closed :
    (OpenBDB (scripted openFails) NoEnv NoTxn "a.db" none 1 0 0 World.start).1
        = (some { ptr := 7 }, none) ∧
    closed (OpenBDB (scripted openFails) NoEnv NoTxn "a.db" none 1 0 0 World.start).2.trace
        = [] := by
  constructor <;> rfl

/-- C4 as stated fails: `Put` with an empty key does not return an error. -/
theorem Put_empty_key_returns_no_error :
    ¬ ∃ e : String,
      (BerkeleyDB.Put (scripted allOk) { ptr := 7 } NoTxn { base := 0, elems := [] }
        { base := 64, elems := [1] } 0 World.start).1 = Outcome.ret (some e) := by
  rintro ⟨e, h⟩
  exact Outcome.noConfusion h

/-- C4 amended: when the key or the value is empty, `Put` panics instead of
returning, and it makes no native call: the world, and with it the trace, is
as before. -/
theorem Put_empty_panics_before_native_put (N : Native σ) (db : BerkeleyDB) (txn : Transaction)
    (key val : Slice) (flags : Nat) (w : World σ)
    (h : key.elems = [] ∨ val.elems = []) :
    (∃ m, (BerkeleyDB.Put N db txn key val flags w).1 = Outcome.panic m) ∧
    (BerkeleyDB.Put N db txn key val flags w).2 = w := by
  obtain ⟨kb, ke⟩ := key
  obtain ⟨vb, ve⟩ := val
  cases ke with
  | nil => exact ⟨⟨_, rfl⟩, rfl⟩
  | cons a as =>
    cases ve with
    | nil => exact ⟨⟨_, rfl⟩, rfl⟩
    | cons b bs => simp at h

/-- C4 amended, at an empty value. -/
theorem Put_empty_panics_before_native_put_witness :
    ((({ base := 64, elems := [1] } : Slice).elems = [] ∨
        ({ base := 0, elems := [] } : Slice).elems = [])) ∧
    ((∃ m, (BerkeleyDB.Put (scripted allOk) { ptr := 7 } NoTxn { base := 64, elems := [1] }
        { base := 0, elems := [] } 0 World.start).1 = Outcome.panic m) ∧
      (BerkeleyDB.Put (scripted allOk) { ptr := 7 } NoTxn { base := 64, elems := [1] }
        { base := 0, elems := [] } 0 World.start).2 = World.start) :=
  ⟨Or.inr rfl, Put_empty_panics_before_native_put (scripted allOk) { ptr := 7 } NoTxn
    { base := 64, elems := [1] } { base := 0, elems := [] } 0 World.start (Or.inr rfl)⟩

/-- C8 as stated fails: a second finishing call on a transaction returns the
nil error. -/
theorem second_Commit_returns_nil :
    (finishAll { ptr := 9 } [Finish.commit 0, Finish.commit 0] World.start).1 = [none, none] ∧
    (finishAll { ptr := 9 } [Finish.abort, Finish.commit 0] World.start).1 = [none, none] := by
  constructor <;> rfl

/-- C8 amended: every Commit and Abort call on a transaction, the first and any
later one, returns the nil error and makes no native call. -/
theorem finishAll_returns_nil_without_native_call (txn : Transaction) (ops : List Finish)
    (w : World σ) :
    (finishAll txn ops w).1 = List.replicate ops.length none ∧ (finishAll txn ops w).2 = w := by
  induction ops with
  | nil => exact ⟨rfl, rfl⟩
  | cons op rest ih =>
    cases op <;>
      simp [finishAll, Transaction.Commit, Transaction.Abort, ih.1, ih.2, List.replicate_succ]

/-- C9 as stated fails: `NewEnvironment` and `BeginTransaction` return a nil
result together with the nil error. -/
theorem NewEnvironment_returns_nil_nil :
    (NewEnvironment "/var/db" 0 0 World.start).1 = (none, none) ∧
    (Environment.BeginTransaction NoEnv 0 World.start).1 = (none, none) := by
  constructor <;> rfl

/-- C9 amended: for every home, flags and mode `NewEnvironment` returns the nil
Environment and the nil error, and for every Environment and flags
`BeginTransaction` returns the nil Transaction and the nil error; neither makes
a native call. -/
theorem NewEnvironment_BeginTransaction_stub (home : String) (flags : Nat) (mode : Int)
    (env : Environment) (w : World σ) :
    NewEnvironment home flags mode w = ((none, none), w) ∧
    Environment.BeginTransaction env flags w = ((none, none), w) :=
  ⟨rfl, rfl⟩

/-! ### Buffer marshaling -/

theorem toU32_of_lt {n : Nat} (h : n < 4294967296) : toU32 n = n := by
  unfold toU32
  omega

theorem toU32_le (n : Nat) : toU32 n ≤ n := by
  unfold toU32
  omega

theorem u32ToCInt_of_lt {s : Nat} (h : s < 2147483648) : u32ToCInt s = (s : Int) := by
  unfold u32ToCInt
  have h1 : s % 4294967296 = s := by omega
  rw [h1, if_pos h]

theorem u32ToCInt_neg {s : Nat} (h1 : 2147483648 ≤ s) (h2 : s < 4294967296) :
    u32ToCInt s < 0 := by
  unfold u32ToCInt
  have h3 : s % 4294967296 = s := by omega
  rw [h3, if_neg (by omega)]
  omega

theorem bytesDBT_of_ne_nil (N : Native σ) (b : Slice) (hne : b.elems ≠ []) :
    bytesDBT N b = Outcome.ret
      { data := some { addr := b.base, bytes := b.elems }
        size := toU32 b.elems.length
        flags := N.DB_DBT_READONLY } := by
  obtain ⟨base, elems⟩ := b
  cases elems with
  | nil => exact absurd rfl hne
  | cons a as => rfl

theorem GoBytes_whole_region (a : Nat) (l : List Byte) (hne : l ≠ []) :
    C.GoBytes (some { addr := a, bytes := l }) (l.length : Int) = Outcome.ret l := by
  have hpos : 0 < l.length := List.length_pos.mpr hne
  unfold C.GoBytes
  rw [if_neg (by omega), if_neg (by omega)]
  simp

theorem cloneToBytes_of_region (d : C.DBT) (a : Nat) (l : List Byte) (hne : l ≠ [])
    (hlen : l.length < 2147483648) (hd : d.data = some { addr := a, bytes := l })
    (hs : d.size = l.length) : cloneToBytes d = Outcome.ret l := by
  unfold cloneToBytes
  rw [hd, hs, u32ToCInt_of_lt hlen]
  exact GoBytes_whole_region a l hne

theorem cloneToBytes_panics_of_large (d : C.DBT) (h1 : 2147483648 ≤ d.size)
    (h2 : d.size < 4294967296) :
    cloneToBytes d = Outcome.panic "gobytes: length out of range" := by
  unfold cloneToBytes C.GoBytes
  rw [if_pos (u32ToCInt_neg h1 h2)]

/-- C10: for a non-empty byte slice shorter than 2^31, `bytesDBT` returns a
descriptor whose size is the slice's length and whose flags are the read-only
flag alone, and `cloneToBytes` of that descriptor returns the slice's bytes. -/
theorem bytesDBT_cloneToBytes_roundtrip (N : Native σ) (b : Slice) (hne : b.elems ≠ [])
    (hlen : b.elems.length < 2147483648) :
    ∃ d : C.DBT, bytesDBT N b = Outcome.ret d ∧ d.size = b.elems.length ∧
      d.flags = N.DB_DBT_READONLY ∧ cloneToBytes d = Outcome.ret b.elems := by
  have hsz : toU32 b.elems.length = b.elems.length := toU32_of_lt (by omega)
  refine ⟨_, bytesDBT_of_ne_nil N b hne, hsz, rfl, ?_⟩
  exact cloneToBytes_of_region _ b.base b.elems hne hlen rfl hsz

/-- C10 at the three-byte slice 1, 2, 3. -/
theorem bytesDBT_cloneToBytes_roundtrip_witness :
    ({ base := 64, elems := [1, 2, 3] } : Slice).elems ≠ [] ∧
    ({ base := 64, elems := [1, 2, 3] } : Slice).elems.length < 2147483648 ∧
    ∃ d : C.DBT, bytesDBT (scripted allOk) { base := 64, elems := [1, 2, 3] } = Outcome.ret d ∧
      d.size = ({ base := 64, elems := [1, 2, 3] } : Slice).elems.length ∧
      d.flags = (scripted allOk).DB_DBT_READONLY ∧
      cloneToBytes d = Outcome.ret ({ base := 64, elems := [1, 2, 3] } : Slice).elems :=
  ⟨by decide, by decide,
    bytesDBT_cloneToBytes_roundtrip (scripted allOk) { base := 64, elems := [1, 2, 3] }
      (by decide) (by decide)⟩

/-! ### Put followed by Get on the map store -/

theorem readDBT_input (base flags : Nat) (l : List Byte) :
    readDBT { data := some { addr := base, bytes := l }, size := toU32 l.length, flags := flags }
      = some (l.take (toU32 l.length)) := by
  simp [readDBT, toU32_le]

theorem Put_mapNative (db : BerkeleyDB) (k v : Slice) (w : World MapStore)
    (hk : k.elems ≠ []) (hv : v.elems ≠ []) (hopen : db.ptr ∈ w.native.opened)
    (hlen : v.elems.length < 4294967296) :
    (BerkeleyDB.Put mapNative db NoTxn k v 0 w).1 = Outcome.ret none ∧
    (BerkeleyDB.Put mapNative db NoTxn k v 0 w).2.native =
      { w.native with
        records := fun x => if x = keyBytes k then some v.elems else w.native.records x } := by
  have hsz : toU32 v.elems.length = v.elems.length := toU32_of_lt hlen
  have hrv := readDBT_input v.base mapNative.DB_DBT_READONLY v.elems
  rw [hsz, List.take_length] at hrv
  have hrk := readDBT_input k.base mapNative.DB_DBT_READONLY k.elems
  unfold BerkeleyDB.Put
  rw [bytesDBT_of_ne_nil _ k hk, bytesDBT_of_ne_nil _ v hv]
  simp only [hsz]
  constructor
  · rfl
  · simp only [World.log, mapNative, hopen, if_true] at hrk hrv ⊢
    simp only [hrk, hrv, keyBytes]

theorem Get_mapNative_present (db : BerkeleyDB) (k : Slice) (val : List Byte) (w : World MapStore)
    (hk : k.elems ≠ []) (hopen : db.ptr ∈ w.native.opened)
    (hrec : w.native.records (keyBytes k) = some val) :
    (BerkeleyDB.Get mapNative db NoTxn k 0 w).1 =
      match cloneToBytes { data := some { addr := w.native.brk + 1, bytes := val }
                           size := val.length, flags := 0 ||| mapNative.DB_DBT_REALLOC } with
      | Outcome.panic m => Outcome.panic m
      | Outcome.ret bytes => Outcome.ret (some bytes, none) := by
  have hrk := readDBT_input k.base mapNative.DB_DBT_READONLY k.elems
  unfold BerkeleyDB.Get
  rw [bytesDBT_of_ne_nil _ k hk]
  simp only [keyBytes] at hrec
  simp only [mapNative, hopen, if_true, Err] at hrk ⊢
  simp only [hrk, hrec, C.DBT.zero]
  split
  · rename_i h
    exact absurd rfl h
  · generalize cloneToBytes _ = c
    cases c <;> rfl

theorem Put_then_Get_panics_of_large_value (db : BerkeleyDB) (k v : Slice) (w : World MapStore)
    (hk : k.elems ≠ []) (hv : v.elems ≠ []) (hopen : db.ptr ∈ w.native.opened)
    (h1 : 2147483648 ≤ v.elems.length) (h2 : v.elems.length < 4294967296) :
    (BerkeleyDB.Get mapNative db NoTxn k 0 (BerkeleyDB.Put mapNative db NoTxn k v 0 w).2).1
      = Outcome.panic "gobytes: length out of range" := by
  have hput := (Put_mapNative db k v w hk hv hopen h2).2
  have hopen2 : db.ptr ∈ (BerkeleyDB.Put mapNative db NoTxn k v 0 w).2.native.opened := by
    rw [hput]
    exact hopen
  have hrec : (BerkeleyDB.Put mapNative db NoTxn k v 0 w).2.native.records (keyBytes k)
      = some v.elems := by
    rw [hput]
    simp
  rw [Get_mapNative_present db k v.elems _ hk hopen2 hrec,
    cloneToBytes_panics_of_large _ h1 h2]

/-- C2 as stated fails: with a value of 2^31 bytes, `Put` returns the nil
error and the `Get` that follows panics instead of returning the value. -/
theorem Put_then_Get_two_gibibyte_value_panics :
    (BerkeleyDB.Put mapNative { ptr := 7 } NoTxn { base := 64, elems := [1] }
      { base := 128, elems := List.replicate 2147483648 0 } 0 emptyStore).1
        = Outcome.ret none ∧
    (BerkeleyDB.Get mapNative { ptr := 7 } NoTxn { base := 64, elems := [1] } 0
      (BerkeleyDB.Put mapNative { ptr := 7 } NoTxn { base := 64, elems := [1] }
        { base := 128, elems := List.replicate 2147483648 0 } 0 emptyStore).2).1
        = Outcome.panic "gobytes: length out of range" := by
  have hlen : (List.replicate 2147483648 (0 : Byte)).length = 2147483648 :=
    List.length_replicate 2147483648 0
  have hne : List.replicate 2147483648 (0 : Byte) ≠ [] := by
    intro h
    rw [h] at hlen
    exact absurd hlen (by decide)
  have hopen : (7 : Nat) ∈ emptyStore.native.opened := List.mem_singleton.mpr rfl
  have hk : ({ base := 64, elems := [1] } : Slice).elems ≠ [] := List.cons_ne_nil _ _
  constructor
  · exact (Put_mapNative { ptr := 7 } { base := 64, elems := [1] }
      { base := 128, elems := List.replicate 2147483648 0 } emptyStore hk hne hopen
      (by rw [hlen]; decide)).1
  · exact Put_then_Get_panics_of_large_value { ptr := 7 } { base := 64, elems := [1] }
      { base := 128, elems := List.replicate 2147483648 0 } emptyStore hk hne hopen
      (by rw [hlen]) (by rw [hlen]; decide)

/-- C2 amended: on the map store, for a non-empty key and a non-empty value
shorter than 2^31 bytes, `Put(NoTxn, k, v, 0)` on an open database returns the
nil error and the `Get(NoTxn, k, 0)` that follows on the same database returns
the bytes of `v` with the nil error. -/
theorem Put_then_Get_roundtrip (db : BerkeleyDB) (k v : Slice) (w : World MapStore)
    (hk : k.elems ≠ []) (hv : v.elems ≠ []) (hopen : db.ptr ∈ w.native.opened)
    (hlen : v.elems.length < 2147483648) :
    (BerkeleyDB.Put mapNative db NoTxn k v 0 w).1 = Outcome.ret none ∧
    (BerkeleyDB.Get mapNative db NoTxn k 0 (BerkeleyDB.Put mapNative db NoTxn k v 0 w).2).1
      = Outcome.ret (some v.elems, none) := by
  have hp := Put_mapNative db k v w hk hv hopen (by omega)
  have hput := hp.2
  have hopen2 : db.ptr ∈ (BerkeleyDB.Put mapNative db NoTxn k v 0 w).2.native.opened := by
    rw [hput]
    exact hopen
  have hrec : (BerkeleyDB.Put mapNative db NoTxn k v 0 w).2.native.records (keyBytes k)
      = some v.elems := by
    rw [hput]
    simp
  refine ⟨hp.1, ?_⟩
  rw [Get_mapNative_present db k v.elems _ hk hopen2 hrec,
    cloneToBytes_of_region _ _ v.elems hv hlen rfl rfl]

/-- C2 amended, at the key 1 and the value 5, 6 on the empty store. -/
theorem Put_then_Get_roundtrip_witness :
    ({ base := 64, elems := [1] } : Slice).elems ≠ [] ∧
    ({ base := 128, elems := [5, 6] } : Slice).elems ≠ [] ∧
    (({ ptr := 7 } : BerkeleyDB).ptr ∈ emptyStore.native.opened) ∧
    ({ base := 128, elems := [5, 6] } : Slice).elems.length < 2147483648 ∧
    (BerkeleyDB.Put mapNative { ptr := 7 } NoTxn { base := 64, elems := [1] }
      { base := 128, elems := [5, 6] } 0 emptyStore).1 = Outcome.ret none ∧
    (BerkeleyDB.Get mapNative { ptr := 7 } NoTxn { base := 64, elems := [1] } 0
      (BerkeleyDB.Put mapNative { ptr := 7 } NoTxn { base := 64, elems := [1] }
        { base := 128, elems := [5, 6] } 0 emptyStore).2).1
      = Outcome.ret (some ({ base := 128, elems := [5, 6] } : Slice).elems, none) :=
  ⟨by decide, by decide, by decide, by decide,
    Put_then_Get_roundtrip { ptr := 7 } { base := 64, elems := [1] }
      { base := 128, elems := [5, 6] } emptyStore (by decide) (by decide) (by decide)
      (by decide)⟩

/-! ### The same facts for every native layer -/

theorem freed_append (xs ys : List Call) : freed (xs ++ ys) = freed xs ++ freed ys := by
  induction xs with
  | nil => rfl
  | cons c cs ih => cases c <;> simp [freed, ih]

theorem closed_append (xs ys : List Call) : closed (xs ++ ys) = closed xs ++ closed ys := by
  induction xs with
  | nil => rfl
  | cons c cs ih => cases c <;> simp [closed, ih]

/-- Whatever the native layer does, `Get` passes exactly one address to `free`,
and that address is 0. -/
theorem Get_frees_exactly_nil (N : Native σ) (db : BerkeleyDB) (txn : Transaction)
    (key : Slice) (flags : Nat) (w : World σ) :
    freed (BerkeleyDB.Get N db txn key flags w).2.trace = freed w.trace ++ [0] := by
  unfold BerkeleyDB.Get
  cases hb : bytesDBT N key with
  | panic m => simp [C.free, World.log, freed_append, freed, Pointer.address, C.DBT.zero]
  | ret k =>
    simp only [Err, ne_eq, not_true_eq_false, if_false]
    cases cloneToBytes (N.db_get db.ptr txn.ptr k
        { data := C.DBT.zero.data, size := C.DBT.zero.size,
          flags := C.DBT.zero.flags ||| N.DB_DBT_REALLOC } (toU32 flags) w.native).1.2 <;>
      simp [C.free, World.log, freed_append, freed, Pointer.address, C.DBT.zero]

/-- Whatever the native layer does, `Get` returns the nil error whenever it
returns. -/
theorem Get_error_is_nil (N : Native σ) (db : BerkeleyDB) (txn : Transaction)
    (key : Slice) (flags : Nat) (w : World σ) (bytes : Option (List Byte)) (err : error)
    (h : (BerkeleyDB.Get N db txn key flags w).1 = Outcome.ret (bytes, err)) : err = none := by
  unfold BerkeleyDB.Get at h
  cases hb : bytesDBT N key with
  | panic m => simp [hb] at h
  | ret k =>
    simp only [hb, Err, ne_eq, not_true_eq_false, if_false] at h
    split at h
    · simp at h
    · simp only [Outcome.ret.injEq, Prod.mk.injEq] at h
      exact h.2.symm

/-- Whatever the native layer does, `n` calls of `Close` on an open database
pass its handle to the native close `n` times. -/
theorem closeRepeatedly_closes_each_time (N : Native σ) (d : BerkeleyDB) (flags : Nat)
    (hopen : d.ptr ≠ 0) (n : Nat) (w : World σ) :
    closed (closeRepeatedly N d flags n w).2.trace = closed w.trace ++ List.replicate n d.ptr := by
  induction n generalizing w with
  | zero => simp [closeRepeatedly]
  | succ n ih =>
    simp only [closeRepeatedly]
    rw [ih]
    simp [BerkeleyDB.Close, hopen, World.log, closed_append, closed, List.replicate_succ]

/-- Whatever the native layer does, `OpenBDB` makes no native close call and
returns the nil error. -/
theorem OpenBDB_never_closes (N : Native σ) (env : Environment) (txn : Transaction)
    (file : String) (database : Option String) (dbtype : Int) (flags : Nat) (mode : Int)
    (w : World σ) :
    closed (OpenBDB N env txn file database dbtype flags mode w).2.trace = closed w.trace ∧
    (OpenBDB N env txn file database dbtype flags mode w).1.2 = none := by
  unfold OpenBDB
  cases database <;>
    simp [Err, World.log, closed_append, closed]

end GoBerkeleyDB
